import Mathlib

/-!
Verification of the API-documentation generator
`plugins/scientific-python-development/skills/scientific-documentation/scripts/generate-api-docs.py`.

The script is embedded shallowly: each Python function becomes a Lean
function over explicit data.  The interaction with the Python runtime
(importing modules, enumerating attributes) and with the filesystem
(listing files, writing files) is made explicit: import results and
attribute tables are inputs, and the effect on the output directory is
a pure function on a directory state.
-/

/-! ## String helpers

Python string primitives used by the script, modelled on the character
data of the Lean string (Python compares strings by code points, which
agrees with the lexicographic order on the character list). -/

/-- Model of Python `s.startswith(p)`: `p.data` is a prefix of `s.data`. -/
def strStartsWith (s p : String) : Bool := List.isPrefixOf p.data s.data

/-- Model of the suffix test done by `glob("*.rst")`: `p.data` is a suffix of `s.data`. -/
def strEndsWith (s p : String) : Bool := List.isSuffixOf p.data s.data

/-- Model of Python `c * n` for a single character: `n` copies of `c`. -/
def strRepeat (c : Char) (n : Nat) : String := String.mk (List.replicate n c)

/-- Code-point order on strings, the order Python `sorted` uses. -/
def strLe (a b : String) : Prop := a.data ≤ b.data

instance : DecidableRel strLe := fun a b => inferInstanceAs (Decidable (a.data ≤ b.data))

instance : IsTotal String strLe := ⟨fun a b => le_total a.data b.data⟩

instance : IsTrans String strLe := ⟨fun _ _ _ h1 h2 => le_trans h1 h2⟩

instance : IsAntisymm String strLe :=
  ⟨fun a b h1 h2 => by cases a; cases b; exact congrArg String.mk (le_antisymm h1 h2)⟩

/-- Model of Python `sorted` on a collection of strings. -/
def sortStrings (l : List String) : List String := List.insertionSort strLe l

/-- Model of Python `".".join(parts)`. -/
def joinDots : List String → String
  | [] => ""
  | [s] => s
  | s :: rest => s ++ "." ++ joinDots rest

theorem sortStrings_perm (l : List String) : (sortStrings l).Perm l :=
  List.perm_insertionSort _ l

theorem sortStrings_sorted (l : List String) : (sortStrings l).Sorted strLe :=
  List.sorted_insertionSort _ l

theorem sortStrings_perm_inv (l1 l2 : List String) (h : l1.Perm l2) :
    sortStrings l1 = sortStrings l2 := by
  apply List.eq_of_perm_of_sorted (r := strLe)
  · exact ((sortStrings_perm l1).trans h).trans (sortStrings_perm l2).symm
  · exact sortStrings_sorted l1
  · exact sortStrings_sorted l2

/-! ## Member classification (`get_public_members`)

An attribute of a module, as the classifier observes it through
`dir(module)` / `getattr` / `inspect`.  `resolves` is whether `getattr`
succeeds (the script catches `AttributeError` / `ImportError`);
`moduleAttr` is the value of `obj.__module__` when the object has that
field (`hasattr(obj, "__module__")`), and `none` when it does not
(module objects, notably, carry no `__module__`); `objName` is
`obj.__name__`, consulted only for module objects. -/

/-- Shape of a resolved attribute as tested by `inspect.isfunction`,
`inspect.isclass`, `inspect.ismodule`. -/
inductive ObjKind where
  | function : ObjKind
  | cls : ObjKind
  | moduleObj : ObjKind
  | other : ObjKind
deriving DecidableEq

/-- One attribute of a module as seen by the classifier loop. -/
structure PyAttr where
  name : String
  resolves : Bool
  moduleAttr : Option String
  kind : ObjKind
  objName : String
deriving DecidableEq

/-- One iteration of the `for name in dir(module)` loop of
`get_public_members`, threading the three accumulating lists. -/
def classifyStep (modName : String)
    (acc : List String × List String × List String) (a : PyAttr) :
    List String × List String × List String :=
  if strStartsWith a.name "_" then acc
  else if !a.resolves then acc
  else if a.moduleAttr.elim false (fun m => !(strStartsWith m modName)) then acc
  else match a.kind with
    | .function => (acc.1 ++ [a.name], acc.2.1, acc.2.2)
    | .cls => (acc.1, acc.2.1 ++ [a.name], acc.2.2)
    | .moduleObj =>
        if strStartsWith a.objName modName then (acc.1, acc.2.1, acc.2.2 ++ [a.name])
        else acc
    | .other => acc

/-- `get_public_members`: partition the public, locally defined attributes
of a module into functions, classes and submodules, each list sorted. -/
def get_public_members (modName : String) (attrs : List PyAttr) :
    List String × List String × List String :=
  let r := attrs.foldl (classifyStep modName) ([], [], [])
  (sortStrings r.1, sortStrings r.2.1, sortStrings r.2.2)

/-- The category under which `classifyStep` files an attribute, if any. -/
def keptKind (modName : String) (a : PyAttr) : Option ObjKind :=
  if strStartsWith a.name "_" then none
  else if !a.resolves then none
  else if a.moduleAttr.elim false (fun m => !(strStartsWith m modName)) then none
  else match a.kind with
    | .function => some .function
    | .cls => some .cls
    | .moduleObj => if strStartsWith a.objName modName then some .moduleObj else none
    | .other => none

/-- Names the classifier files as functions, in attribute order. -/
def keptFunctions (modName : String) (attrs : List PyAttr) : List String :=
  (attrs.filter (fun a => decide (keptKind modName a = some ObjKind.function))).map PyAttr.name

/-- Names the classifier files as classes, in attribute order. -/
def keptClasses (modName : String) (attrs : List PyAttr) : List String :=
  (attrs.filter (fun a => decide (keptKind modName a = some ObjKind.cls))).map PyAttr.name

/-- Names the classifier files as submodules, in attribute order. -/
def keptSubmodules (modName : String) (attrs : List PyAttr) : List String :=
  (attrs.filter (fun a => decide (keptKind modName a = some ObjKind.moduleObj))).map PyAttr.name

/-- All names appearing in any of the three lists returned by
`get_public_members`. -/
def keptNames (modName : String) (attrs : List PyAttr) : List String :=
  (get_public_members modName attrs).1 ++ (get_public_members modName attrs).2.1 ++
    (get_public_members modName attrs).2.2

theorem classifyStep_eq (modName : String)
    (acc : List String × List String × List String) (a : PyAttr) :
    classifyStep modName acc a =
      match keptKind modName a with
      | some .function => (acc.1 ++ [a.name], acc.2.1, acc.2.2)
      | some .cls => (acc.1, acc.2.1 ++ [a.name], acc.2.2)
      | some .moduleObj => (acc.1, acc.2.1, acc.2.2 ++ [a.name])
      | some .other => acc
      | none => acc := by
  unfold classifyStep keptKind
  split
  · rfl
  · split
    · rfl
    · split
      · rfl
      · cases a.kind <;> simp only []
        split <;> rfl

theorem foldl_classify (modName : String) (attrs : List PyAttr)
    (init : List String × List String × List String) :
    attrs.foldl (classifyStep modName) init =
      (init.1 ++ keptFunctions modName attrs,
       init.2.1 ++ keptClasses modName attrs,
       init.2.2 ++ keptSubmodules modName attrs) := by
  induction attrs generalizing init with
  | nil => simp [keptFunctions, keptClasses, keptSubmodules]
  | cons a rest ih =>
      simp only [List.foldl_cons, ih, classifyStep_eq,
        keptFunctions, keptClasses, keptSubmodules, List.filter_cons]
      rcases hk : keptKind modName a with _ | k
      · simp [hk]
      · cases k <;> simp [hk]

theorem get_public_members_eq (modName : String) (attrs : List PyAttr) :
    get_public_members modName attrs =
      (sortStrings (keptFunctions modName attrs),
       sortStrings (keptClasses modName attrs),
       sortStrings (keptSubmodules modName attrs)) := by
  unfold get_public_members
  rw [foldl_classify]
  simp

/-! ## Per-module page emission (`generate_module_doc`)

The body of the page is built as the concatenation of the successive
`f.write` calls of the source.  The outcome of the function is made
explicit: it either prints a warning (import failed), prints a skip
notice (no public members), or writes one file. -/

/-- Body text of a per-module page, one `++` operand per `f.write`
call of the source. -/
def moduleDocContent (module_name : String)
    (functions classes submodules : List String) : String :=
  module_name ++ "\n"
  ++ strRepeat '=' module_name.length ++ "\n\n"
  ++ ".. automodule:: " ++ module_name ++ "\n\n"
  ++ (if functions = [] then "" else
      "Functions\n"
      ++ strRepeat '-' 9 ++ "\n\n"
      ++ ".. autosummary::\n"
      ++ "   :toctree: generated/\n\n"
      ++ String.join (functions.map (fun func => "   " ++ func ++ "\n"))
      ++ "\n")
  ++ (if classes = [] then "" else
      "Classes\n"
      ++ strRepeat '-' 7 ++ "\n\n"
      ++ ".. autosummary::\n"
      ++ "   :toctree: generated/\n"
      ++ "   :template: class.rst\n\n"
      ++ String.join (classes.map (fun cls => "   " ++ cls ++ "\n"))
      ++ "\n")
  ++ (if submodules = [] then "" else
      "Submodules\n"
      ++ strRepeat '-' 10 ++ "\n\n"
      ++ ".. autosummary::\n"
      ++ "   :toctree: generated/\n"
      ++ "   :recursive:\n\n"
      ++ String.join (submodules.map (fun submod => "   " ++ submod ++ "\n"))
      ++ "\n")

/-- Observable outcome of one `generate_module_doc` call. -/
inductive ModuleDocResult where
  | warned (message : String) : ModuleDocResult
  | skipped (message : String) : ModuleDocResult
  | wrote (fileName content : String) : ModuleDocResult
deriving DecidableEq

/-- `generate_module_doc`: the import of `module_name` is passed in as
`imp` (the attribute table on success, the error text on failure).  The
file name is relative to the output directory; the `package_name`
parameter of the source is unused by its body and omitted. -/
def generate_module_doc (module_name : String)
    (imp : Except String (List PyAttr)) : ModuleDocResult :=
  match imp with
  | .error e => .warned ("Warning: Could not import " ++ module_name ++ ": " ++ e)
  | .ok attrs =>
    let gp := get_public_members module_name attrs
    if gp.1 = [] ∧ gp.2.1 = [] ∧ gp.2.2 = [] then
      .skipped ("Skipping " ++ module_name ++ " (no public members)")
    else
      .wrote (module_name ++ ".rst") (moduleDocContent module_name gp.1 gp.2.1 gp.2.2)

/-! ## Module discovery (`discover_modules`) -/

/-- A source file found by `rglob("*.py")` under the package directory:
`dirs` are the directory segments below the package directory and the
file itself is named `stem ++ ".py"`. -/
structure PyFile where
  dirs : List String
  stem : String
deriving DecidableEq

/-- The file name of a discovered source file (`py_file.name`). -/
def pyFileName (f : PyFile) : String := f.stem ++ ".py"

/-- The underscore-exclusion test of the discovery loop: skipped when the
name starts with an underscore and is not the package initializer file. -/
def fileSkipped (f : PyFile) : Bool :=
  strStartsWith (pyFileName f) "_" && pyFileName f != "__init__.py"

/-- Dotted module name derived from a source file.  The path relative to
the package's parent is the package directory name followed by `dirs`
followed by the file; the initializer file contributes no final segment,
any other file contributes its stem. -/
def fileModuleName (pkgDirName : String) (f : PyFile) : String :=
  joinDots ((pkgDirName :: f.dirs) ++
    (if pyFileName f = "__init__.py" then [] else [f.stem]))

/-- Outcome of `importlib.import_module` on the root package: failure with
an error text, or success with the optional filesystem location
(`__path__[0]`, given by its final directory name, plus the `*.py` files
found beneath it). -/
inductive ImportResult where
  | failed (err : String) : ImportResult
  | ok (location : Option (String × List PyFile)) : ImportResult

/-- Model of `set.add`: the underlying list gains the element unless it is
already present. -/
def addModule (m : String) (l : List String) : List String :=
  if m ∈ l then l else l ++ [m]

/-- One iteration of the `for py_file in package_path.rglob("*.py")` loop
of `discover_modules`. -/
def discoverStep (pkgDirName : String) (acc : List String) (f : PyFile) :
    List String :=
  if fileSkipped f then acc
  else
    let module_name := fileModuleName pkgDirName f
    if module_name = "" then acc else addModule module_name acc

/-- The set of module names produced by the discovery loop of
`discover_modules` once the package import succeeded. -/
def module_set (package_name : String)
    (location : Option (String × List PyFile)) : List String :=
  match location with
  | none => [package_name]
  | some (pkgDirName, files) =>
    files.foldl (discoverStep pkgDirName) [package_name]

/-- `discover_modules`: on an import failure the script prints an error and
calls `sys.exit(1)`, modelled as `Except.error 1`. -/
def discover_modules (package_name : String) (imp : ImportResult) :
    Except Nat (List String) :=
  match imp with
  | .failed _ => .error 1
  | .ok location => .ok (module_set package_name location)

/-! ## Index page emission (`generate_api_index`) -/

/-- Name of the file `generate_api_index` writes in the output directory. -/
def apiIndexFileName : String := "api.rst"

/-- Body text of the index page, one `++` operand per `f.write` call of
the source. -/
def apiIndexContent (package_name : String) (modules : List String) : String :=
  "API Reference" ++ "\n"
  ++ strRepeat '=' ("API Reference").length ++ "\n\n"
  ++ ("This page contains auto-generated API documentation for "
      ++ package_name ++ ".\n\n")
  ++ ".. toctree::\n"
  ++ "   :maxdepth: 2\n\n"
  ++ String.join ((sortStrings modules).map (fun m => "   " ++ m ++ "\n"))

/-- `generate_api_index`: the file it writes, as (name, content) relative
to the output directory. -/
def generate_api_index (package_name : String) (modules : List String) :
    String × String :=
  (apiIndexFileName, apiIndexContent package_name modules)

/-! ## Output directory state and `main`

The output directory is modelled by its direct regular files (name and
content) and its direct subdirectories (name and flat contents).  All
files the script writes are direct children of the output directory:
per-module file names are dotted module names, never containing a path
separator. -/

/-- A regular file: name and content. -/
structure FileEnt where
  name : String
  content : String
deriving DecidableEq

/-- A direct subdirectory of the output directory and its contents. -/
structure DirEnt where
  name : String
  contents : List FileEnt
deriving DecidableEq

/-- State of the output directory. -/
structure OutDir where
  files : List FileEnt
  subdirs : List DirEnt
deriving DecidableEq

/-- The clean step of `main` on an existing output directory: unlink every
direct `*.rst` file whose name is not `index.rst`, and remove the
`generated` subdirectory tree if present. -/
def cleanOutput (d : OutDir) : OutDir :=
  { files := d.files.filter
      (fun f => !(strEndsWith f.name ".rst" && f.name != "index.rst")),
    subdirs := d.subdirs.filter (fun sd => sd.name != "generated") }

/-- Model of `open(filename, "w")` plus the write: the file is created or
fully overwritten. -/
def writeFile (d : OutDir) (name content : String) : OutDir :=
  if d.files.any (fun f => f.name == name) then
    { d with files :=
        d.files.map (fun f => if f.name == name then ⟨name, content⟩ else f) }
  else
    { d with files := d.files ++ [⟨name, content⟩] }

/-- Content of a direct file of the output directory, if present. -/
def readFile (d : OutDir) (name : String) : Option String :=
  (d.files.find? (fun f => f.name == name)).map (fun f => f.content)

/-- The ambient Python environment a run observes: the import of the root
package, and the import of each discovered module by name. -/
structure PyEnv where
  pkgImport : ImportResult
  modImport : String → Except String (List PyAttr)

/-- Starting directory state of a run: a missing output directory becomes
empty (`mkdir -p`); an existing one is first cleaned when `--clean` is
given. -/
def startDir (clean : Bool) (outputDir : Option OutDir) : OutDir :=
  match outputDir with
  | none => ⟨[], []⟩
  | some d => if clean then cleanOutput d else d

/-- `main`: clean if requested, discover the modules (aborting with exit
status 1 when the package import fails), generate one page per module in
sorted order, then generate the index. -/
def runMain (env : PyEnv) (package_name : String) (clean : Bool)
    (outputDir : Option OutDir) : Except Nat OutDir :=
  let d0 := startDir clean outputDir
  match discover_modules package_name env.pkgImport with
  | .error code => .error code
  | .ok mods =>
    let d1 := (sortStrings mods).foldl (fun acc m =>
      match generate_module_doc m (env.modImport m) with
      | .wrote fn c => writeFile acc fn c
      | _ => acc) d0
    .ok (writeFile d1 (generate_api_index package_name mods).1
      (generate_api_index package_name mods).2)

/-- The sequence of file writes a run performs once the package import
succeeded, in order: one write per module page actually emitted, then
the index write. -/
def writeSeq (env : PyEnv) (package_name : String) : List (String × String) :=
  match env.pkgImport with
  | .failed _ => []
  | .ok location =>
    let mods := module_set package_name location
    (sortStrings mods).filterMap (fun m =>
      match generate_module_doc m (env.modImport m) with
      | .wrote fn c => some (fn, c)
      | _ => none)
    ++ [(apiIndexFileName, apiIndexContent package_name mods)]

/-- Replay a sequence of writes on a directory state. -/
def applyWrites (ws : List (String × String)) (d : OutDir) : OutDir :=
  ws.foldl (fun acc w => writeFile acc w.1 w.2) d

/-- Content the last write of the sequence assigns to a name, if any
write touches it. -/
def lookupWrites : List (String × String) → String → Option String
  | [], _ => none
  | w :: ws, n =>
    match lookupWrites ws n with
    | some c => some c
    | none => if w.1 = n then some w.2 else none

/-! ## Spec-side page descriptions

Definitions following the wording of the specification, to be compared
with the definitions transcribed from the source. -/

/-- A member section as the spec describes it: a heading with an
underline of matching length, an auto-summary directive with its
category-specific option lines, and every member name one per line;
a category with zero members contributes nothing at all. -/
def specSection (heading : String) (options : List String)
    (members : List String) : String :=
  if members = [] then "" else
    heading ++ "\n"
    ++ strRepeat '-' heading.length ++ "\n\n"
    ++ ".. autosummary::\n"
    ++ String.join (options.map (fun o => "   " ++ o ++ "\n")) ++ "\n"
    ++ String.join (members.map (fun x => "   " ++ x ++ "\n"))
    ++ "\n"

/-- A module page as the spec describes it: a title line equal to the
module name, an underline of matching length, the automodule directive,
then only the non-empty categories in the fixed order Functions,
Classes, Submodules, where classes carry an extra template-selection
option and submodules an extra recursive-expansion option. -/
def specModulePage (module_name : String)
    (functions classes submodules : List String) : String :=
  module_name ++ "\n"
  ++ strRepeat '=' module_name.length ++ "\n\n"
  ++ ".. automodule:: " ++ module_name ++ "\n\n"
  ++ specSection "Functions" [":toctree: generated/"] functions
  ++ specSection "Classes" [":toctree: generated/", ":template: class.rst"] classes
  ++ specSection "Submodules" [":toctree: generated/", ":recursive:"] submodules

/-- The index page as the spec describes it: a title with an underline of
matching length, a one-line description referencing the package name,
and a table-of-contents directive listing every module name in
lexicographic order, one per line. -/
def specIndexPage (package_name : String) (modules : List String) : String :=
  "API Reference" ++ "\n"
  ++ strRepeat '=' ("API Reference").length ++ "\n\n"
  ++ ("This page contains auto-generated API documentation for "
      ++ package_name ++ ".\n\n")
  ++ ".. toctree::\n"
  ++ "   :maxdepth: 2\n\n"
  ++ String.join ((sortStrings modules).map (fun m => "   " ++ m ++ "\n"))

/-! ## Formalized claim statements that the code refutes -/

/-- Claim C1 as stated: the clean step keeps a direct file exactly when it
is not an `.rst` file other than the one `generate_api_index` writes, it
removes exactly the `generated` subdirectory, and in particular the file
written by `generate_api_index` survives the clean step. -/
def C1_claim : Prop :=
  ∀ d : OutDir,
    (∀ f ∈ d.files, f ∈ (cleanOutput d).files ↔
      ¬(strEndsWith f.name ".rst" = true ∧ f.name ≠ apiIndexFileName)) ∧
    (∀ sd ∈ d.subdirs, sd ∈ (cleanOutput d).subdirs ↔ sd.name ≠ "generated")

/-- Claim C4 as stated: every name kept in any of the three classified
lists comes from an attribute whose recorded `__module__` field exists
and starts with the current module's name. -/
def C4_claim : Prop :=
  ∀ modName attrs n, n ∈ keptNames modName attrs →
    ∃ a ∈ attrs, a.name = n ∧
      ∃ m, a.moduleAttr = some m ∧ strStartsWith m modName = true

/-- Claim C9 as stated: after a run, the clean step preserves the index
file the run wrote, and a subsequent clean-then-generate run reproduces
every generated file with identical content. -/
def C9_claim : Prop :=
  ∀ env package_name outputDir d1,
    runMain env package_name false outputDir = .ok d1 →
    readFile (cleanOutput d1) apiIndexFileName = readFile d1 apiIndexFileName ∧
    ∃ d2, runMain env package_name true (some d1) = .ok d2 ∧
      ∀ n c, lookupWrites (writeSeq env package_name) n = some c →
        readFile d1 n = some c ∧ readFile d2 n = some c

/-! ## Helper lemmas -/

theorem mem_addModule (m x : String) (l : List String) :
    m ∈ addModule x l ↔ m = x ∨ m ∈ l := by
  unfold addModule
  split
  · rename_i h
    constructor
    · exact Or.inr
    · rintro (rfl | hm)
      exacts [h, hm]
  · simp [List.mem_append, or_comm]

theorem mem_discoverStep (pkgDirName : String) (acc : List String) (f : PyFile)
    (m : String) :
    m ∈ discoverStep pkgDirName acc f ↔
      m ∈ acc ∨ (fileSkipped f = false ∧ fileModuleName pkgDirName f ≠ "" ∧
        m = fileModuleName pkgDirName f) := by
  unfold discoverStep
  by_cases h1 : fileSkipped f = true
  · simp [h1]
  · rw [Bool.not_eq_true] at h1
    by_cases h2 : fileModuleName pkgDirName f = ""
    · simp [h1, h2]
    · simp [h1, h2, mem_addModule]
      tauto

theorem mem_foldl_discover (pkgDirName : String) (files : List PyFile)
    (acc : List String) (m : String) :
    m ∈ files.foldl (discoverStep pkgDirName) acc ↔
      m ∈ acc ∨ ∃ f ∈ files, fileSkipped f = false ∧
        fileModuleName pkgDirName f ≠ "" ∧ m = fileModuleName pkgDirName f := by
  induction files generalizing acc with
  | nil => simp
  | cons f rest ih =>
    rw [List.foldl_cons, ih, mem_discoverStep, List.exists_mem_cons_iff]
    tauto

theorem classifyStep_skip (modName : String)
    (acc : List String × List String × List String) (a : PyAttr)
    (h : a.resolves = false) : classifyStep modName acc a = acc := by
  unfold classifyStep
  split
  · rfl
  · rw [h]
    rfl

theorem keptKind_none_of_foreign (modName : String) (a : PyAttr) (m : String)
    (hm : a.moduleAttr = some m) (hs : strStartsWith m modName = false) :
    keptKind modName a = none := by
  unfold keptKind
  split
  · rfl
  · split
    · rfl
    · split
      · rfl
      · rename_i h3
        rw [hm] at h3
        simp [hs] at h3

theorem mem_keptNames (modName : String) (attrs : List PyAttr) (n : String) :
    n ∈ keptNames modName attrs ↔
      ∃ b ∈ attrs, b.name = n ∧
        (keptKind modName b = some .function ∨ keptKind modName b = some .cls ∨
         keptKind modName b = some .moduleObj) := by
  unfold keptNames
  rw [get_public_members_eq]
  simp only [List.mem_append, (sortStrings_perm _).mem_iff,
    keptFunctions, keptClasses, keptSubmodules, List.mem_map, List.mem_filter,
    decide_eq_true_eq]
  constructor
  · rintro ((⟨b, ⟨hb, hk⟩, rfl⟩ | ⟨b, ⟨hb, hk⟩, rfl⟩) | ⟨b, ⟨hb, hk⟩, rfl⟩)
    · exact ⟨b, hb, rfl, Or.inl hk⟩
    · exact ⟨b, hb, rfl, Or.inr (Or.inl hk)⟩
    · exact ⟨b, hb, rfl, Or.inr (Or.inr hk)⟩
  · rintro ⟨b, hb, rfl, (hk | hk | hk)⟩
    · exact Or.inl (Or.inl ⟨b, ⟨hb, hk⟩, rfl⟩)
    · exact Or.inl (Or.inr ⟨b, ⟨hb, hk⟩, rfl⟩)
    · exact Or.inr ⟨b, ⟨hb, hk⟩, rfl⟩


theorem find?_map_upsert (l : List FileEnt) (n c : String)
    (h : l.any (fun f => f.name == n) = true) :
    (l.map (fun f => if f.name == n then (⟨n, c⟩ : FileEnt) else f)).find?
      (fun f => f.name == n) = some ⟨n, c⟩ := by
  induction l with
  | nil => simp at h
  | cons f rest ih =>
    by_cases hf : (f.name == n) = true
    · rw [List.map_cons, if_pos hf]
      exact List.find?_cons_of_pos _ (by simp)
    · rw [Bool.not_eq_true] at hf
      rw [List.any_cons, hf, Bool.false_or] at h
      rw [List.map_cons, if_neg (by simp [hf])]
      rw [List.find?_cons_of_neg _ (by simp [hf])]
      exact ih h

theorem find?_map_upsert_ne (l : List FileEnt) (n c m : String) (h : n ≠ m) :
    (l.map (fun f => if f.name == n then (⟨n, c⟩ : FileEnt) else f)).find?
      (fun f => f.name == m) = l.find? (fun f => f.name == m) := by
  induction l with
  | nil => rfl
  | cons f rest ih =>
    by_cases hf : (f.name == n) = true
    · have hfn : f.name = n := by simpa using hf
      rw [List.map_cons, if_pos hf]
      rw [List.find?_cons_of_neg (p := fun f : FileEnt => f.name == m) (a := ⟨n, c⟩) _
        (by simp [h]), ih]
      rw [List.find?_cons_of_neg (p := fun f : FileEnt => f.name == m) (a := f) _
        (by simp [hfn, h])]
    · rw [Bool.not_eq_true] at hf
      rw [List.map_cons, if_neg (by simp [hf])]
      by_cases hm : (f.name == m) = true
      · rw [List.find?_cons_of_pos (p := fun f : FileEnt => f.name == m) (a := f) _ hm,
          List.find?_cons_of_pos (p := fun f : FileEnt => f.name == m) (a := f) _ hm]
      · rw [List.find?_cons_of_neg (p := fun f : FileEnt => f.name == m) (a := f) _ hm,
          List.find?_cons_of_neg (p := fun f : FileEnt => f.name == m) (a := f) _ hm, ih]

theorem readFile_writeFile_self (d : OutDir) (n c : String) :
    readFile (writeFile d n c) n = some c := by
  unfold writeFile readFile
  by_cases h : d.files.any (fun f => f.name == n) = true
  · rw [if_pos h]
    rw [find?_map_upsert _ _ _ h]
    rfl
  · rw [if_neg h]
    rw [List.find?_append]
    have h1 : d.files.find? (fun f => f.name == n) = none := by
      rw [List.find?_eq_none]
      intro x hx hp
      rw [Bool.not_eq_true, List.any_eq_false] at h
      exact absurd hp (by simpa using h x hx)
    rw [h1]
    simp [List.find?]

theorem readFile_writeFile_ne (d : OutDir) (n c m : String) (h : n ≠ m) :
    readFile (writeFile d n c) m = readFile d m := by
  unfold writeFile readFile
  by_cases hany : d.files.any (fun f => f.name == n) = true
  · rw [if_pos hany]
    rw [find?_map_upsert_ne _ _ _ _ h]
  · rw [if_neg hany]
    rw [List.find?_append]
    have h2 : List.find? (fun f => f.name == m) [(⟨n, c⟩ : FileEnt)] = none := by
      rw [List.find?_cons_of_neg (p := fun f : FileEnt => f.name == m) (a := ⟨n, c⟩) _
        (by simp [h])]
      rfl
    rw [h2]
    cases List.find? (fun f => f.name == m) d.files <;> rfl

theorem lookupWrites_cons (w : String × String) (ws : List (String × String))
    (n : String) :
    lookupWrites (w :: ws) n =
      match lookupWrites ws n with
      | some c => some c
      | none => if w.1 = n then some w.2 else none := rfl

theorem readFile_applyWrites (ws : List (String × String)) (d : OutDir)
    (n : String) :
    readFile (applyWrites ws d) n =
      match lookupWrites ws n with
      | some c => some c
      | none => readFile d n := by
  induction ws generalizing d with
  | nil => rfl
  | cons w ws ih =>
    show readFile (applyWrites ws (writeFile d w.1 w.2)) n = _
    rw [ih, lookupWrites_cons]
    cases hl : lookupWrites ws n with
    | some c => rfl
    | none =>
      show readFile (writeFile d w.1 w.2) n = _
      by_cases hw : w.1 = n
      · rw [if_pos hw, hw, readFile_writeFile_self]
      · rw [if_neg hw, readFile_writeFile_ne _ _ _ _ hw]

theorem applyWrites_append (ws1 ws2 : List (String × String)) (d : OutDir) :
    applyWrites (ws1 ++ ws2) d = applyWrites ws2 (applyWrites ws1 d) :=
  List.foldl_append _ _ _ _

theorem foldl_writeMatch (env : PyEnv) (l : List String) (d : OutDir) :
    l.foldl (fun acc m =>
      match generate_module_doc m (env.modImport m) with
      | .wrote fn c => writeFile acc fn c
      | _ => acc) d
    = applyWrites (l.filterMap (fun m =>
        match generate_module_doc m (env.modImport m) with
        | .wrote fn c => some (fn, c)
        | _ => none)) d := by
  induction l generalizing d with
  | nil => rfl
  | cons m rest ih =>
    rw [List.foldl_cons, List.filterMap_cons]
    cases hg : generate_module_doc m (env.modImport m) with
    | warned msg =>
      simp only [hg]
      exact ih d
    | skipped msg =>
      simp only [hg]
      exact ih d
    | wrote fn c =>
      simp only [hg]
      exact ih (writeFile d fn c)

theorem runMain_ok (env : PyEnv) (package_name : String) (clean : Bool)
    (outputDir : Option OutDir) (location : Option (String × List PyFile))
    (h : env.pkgImport = .ok location) :
    runMain env package_name clean outputDir =
      .ok (applyWrites (writeSeq env package_name)
        (startDir clean outputDir)) := by
  simp only [runMain, writeSeq, discover_modules, h]
  rw [applyWrites_append, foldl_writeMatch]
  rfl

theorem readFile_cleanOutput_rst (d : OutDir) (n : String)
    (h1 : strEndsWith n ".rst" = true) (h2 : n ≠ "index.rst") :
    readFile (cleanOutput d) n = none := by
  have hfind : (cleanOutput d).files.find? (fun f => f.name == n) = none := by
    rw [List.find?_eq_none]
    intro x hx hp
    have hxn : x.name = n := by simpa using hp
    have hx2 := (List.mem_filter.mp hx).2
    rw [hxn] at hx2
    simp [h1, h2] at hx2
  unfold readFile
  rw [hfind]
  rfl

theorem generate_module_doc_ok (module_name : String) (attrs : List PyAttr) :
    generate_module_doc module_name (.ok attrs) =
      if (get_public_members module_name attrs).1 = [] ∧
         (get_public_members module_name attrs).2.1 = [] ∧
         (get_public_members module_name attrs).2.2 = [] then
        .skipped ("Skipping " ++ module_name ++ " (no public members)")
      else .wrote (module_name ++ ".rst")
        (moduleDocContent module_name (get_public_members module_name attrs).1
          (get_public_members module_name attrs).2.1
          (get_public_members module_name attrs).2.2) := rfl

/-! ## Concrete environments and data used by witnesses -/

/-- An environment whose root-package import fails. -/
def envFailed : PyEnv :=
  ⟨.failed "No module named bad", fun _ => .error "unused"⟩

/-- An environment whose root package imports and sits in an empty
directory named `pkg`, while every individual module import fails. -/
def envNoFiles : PyEnv :=
  ⟨.ok (some ("pkg", [])), fun _ => .error "boom"⟩

/-- A resolving public function attribute defined in `pkg`. -/
def attrRun : PyAttr := ⟨"run", true, some "pkg", .function, ""⟩

/-- A resolving public submodule attribute of `pkg`; module objects carry
no recorded defining-module field. -/
def attrSub : PyAttr := ⟨"sub", true, none, .moduleObj, "pkg.sub"⟩

/-- A non-resolving attribute. -/
def attrBroken : PyAttr := ⟨"broken", false, some "pkg", .function, ""⟩

/-- A resolving attribute re-exported from an unrelated module. -/
def attrForeign : PyAttr := ⟨"np", true, some "numpy", .other, "numpy"⟩

/-! ## Claims -/

/-- C2: a run terminates with a non-zero exit status exactly when the
top-level package cannot be imported; the only error status is 1 (which
is non-zero), and whenever the package import succeeds the run completes
normally no matter how the individual module imports or attribute
resolutions fail. -/
theorem C2_theorem (env : PyEnv) (package_name : String) (clean : Bool)
    (outputDir : Option OutDir) :
    ((∃ code, runMain env package_name clean outputDir = .error code) ↔
      (∃ e, env.pkgImport = .failed e)) ∧
    (∀ code, runMain env package_name clean outputDir = .error code →
      code = 1 ∧ code ≠ 0) := by
  rcases henv : env.pkgImport with e | location
  · have hrun : runMain env package_name clean outputDir = .error 1 := by
      simp only [runMain, discover_modules, henv]
    refine ⟨⟨fun _ => ⟨e, rfl⟩, fun _ => ⟨1, hrun⟩⟩, ?_⟩
    intro code hc
    rw [hrun] at hc
    simp only [Except.error.injEq] at hc
    subst hc
    exact ⟨rfl, one_ne_zero⟩
  · rw [runMain_ok env package_name clean outputDir location henv]
    refine ⟨⟨?_, ?_⟩, ?_⟩
    · rintro ⟨code, hc⟩
      exact Except.noConfusion hc
    · rintro ⟨e, he⟩
      exact ImportResult.noConfusion he
    · intro code hc
      exact Except.noConfusion hc

/-- Witness for C2 at a concrete failing environment. -/
theorem C2_witness : (1 : Nat) = 1 ∧ (1 : Nat) ≠ 0 :=
  (C2_theorem envFailed "bad" false none).2 1 rfl

/-- C3: `generate_module_doc` writes a file exactly when the module import
succeeds and at least one classified member list is non-empty; an import
failure yields a warning naming the module and the underlying error, an
all-empty classification yields a skip notice, and a written file is
named after the module. -/
theorem C3_theorem (module_name : String) (imp : Except String (List PyAttr)) :
    ((∃ fn c, generate_module_doc module_name imp = .wrote fn c) ↔
      (∃ attrs, imp = .ok attrs ∧
        ¬((get_public_members module_name attrs).1 = [] ∧
          (get_public_members module_name attrs).2.1 = [] ∧
          (get_public_members module_name attrs).2.2 = []))) ∧
    (∀ e, imp = .error e → generate_module_doc module_name imp =
      .warned ("Warning: Could not import " ++ module_name ++ ": " ++ e)) ∧
    (∀ attrs, imp = .ok attrs →
      ((get_public_members module_name attrs).1 = [] ∧
       (get_public_members module_name attrs).2.1 = [] ∧
       (get_public_members module_name attrs).2.2 = []) →
      generate_module_doc module_name imp =
        .skipped ("Skipping " ++ module_name ++ " (no public members)")) ∧
    (∀ fn c, generate_module_doc module_name imp = .wrote fn c →
      fn = module_name ++ ".rst") := by
  rcases imp with e | attrs
  · refine ⟨⟨?_, ?_⟩, ?_, ?_, ?_⟩
    · rintro ⟨fn, c, hw⟩
      exact ModuleDocResult.noConfusion hw
    · rintro ⟨attrs, ha, _⟩
      exact Except.noConfusion ha
    · intro e2 he
      simp only [Except.error.injEq] at he
      subst he
      rfl
    · intro attrs ha
      exact Except.noConfusion ha
    · intro fn c hw
      exact ModuleDocResult.noConfusion hw
  · by_cases hemp : (get_public_members module_name attrs).1 = [] ∧
      (get_public_members module_name attrs).2.1 = [] ∧
      (get_public_members module_name attrs).2.2 = []
    · have hr : generate_module_doc module_name (.ok attrs) =
        .skipped ("Skipping " ++ module_name ++ " (no public members)") := by
        rw [generate_module_doc_ok, if_pos hemp]
      refine ⟨⟨?_, ?_⟩, ?_, ?_, ?_⟩
      · rintro ⟨fn, c, hw⟩
        rw [hr] at hw
        exact ModuleDocResult.noConfusion hw
      · rintro ⟨attrs2, ha, hne⟩
        simp only [Except.ok.injEq] at ha
        subst ha
        exact absurd hemp hne
      · intro e2 he
        exact Except.noConfusion he
      · intro attrs2 ha _
        exact hr
      · intro fn c hw
        rw [hr] at hw
        exact ModuleDocResult.noConfusion hw
    · have hr : generate_module_doc module_name (.ok attrs) =
        .wrote (module_name ++ ".rst")
          (moduleDocContent module_name (get_public_members module_name attrs).1
            (get_public_members module_name attrs).2.1
            (get_public_members module_name attrs).2.2) := by
        rw [generate_module_doc_ok, if_neg hemp]
      refine ⟨⟨?_, ?_⟩, ?_, ?_, ?_⟩
      · exact fun _ => ⟨attrs, rfl, hemp⟩
      · exact fun _ => ⟨_, _, hr⟩
      · intro e2 he
        exact Except.noConfusion he
      · intro attrs2 ha hemp2
        simp only [Except.ok.injEq] at ha
        subst ha
        exact absurd hemp2 hemp
      · intro fn c hw
        rw [hr] at hw
        injection hw with h1 h2
        exact h1.symm

/-- Witness for C3: on a module with one public function the emitter
writes the module-named file, and on a failing import it only warns. -/
theorem C3_witness :
    generate_module_doc "pkg" (.error "E") =
      .warned ("Warning: Could not import " ++ "pkg" ++ ": " ++ "E") :=
  ( C3_theorem "pkg" (.error "E")).2.1 "E" rfl

/-- C5: an attribute whose resolution raises is skipped silently: the
classifier's result on a list containing a non-resolving attribute equals
its result with that attribute removed, so the remaining attributes are
still classified and no error propagates. -/
theorem C5_theorem (modName : String) (pre post : List PyAttr) (a : PyAttr)
    (h : a.resolves = false) :
    get_public_members modName (pre ++ a :: post) =
      get_public_members modName (pre ++ post) := by
  have h1 : (pre ++ a :: post).foldl (classifyStep modName) ([], [], []) =
      (pre ++ post).foldl (classifyStep modName) ([], [], []) := by
    rw [List.foldl_append, List.foldl_append, List.foldl_cons,
      classifyStep_skip _ _ _ h]
  unfold get_public_members
  rw [h1]

/-- Witness for C5 at a concrete module with a broken attribute. -/
theorem C5_witness :
    get_public_members "pkg" ([attrRun] ++ attrBroken :: [attrSub]) =
      get_public_members "pkg" ([attrRun] ++ [attrSub]) :=
  C5_theorem "pkg" [attrRun] [attrSub] attrBroken rfl

/-- C4 counterexample: the claim that every kept member has a recorded
defining-module field starting with the module's name fails: a submodule
attribute carries no such field (module objects have no recorded
defining-module), yet the `hasattr` guard lets it through and it is kept
in the submodule list. -/
theorem C4_counterexample : ¬ C4_claim := by
  intro h
  have h2 := h "pkg" [attrSub] "sub" (by decide)
  rcases h2 with ⟨a, ha, _, m, hm, _⟩
  rw [List.mem_singleton] at ha
  subst ha
  exact Option.noConfusion hm

/-- C4 amended: every attribute that does carry a recorded
defining-module field not starting with the current module's name is
excluded from all three classified lists; attributes without the field
bypass this filter (as the counterexample shows).  Distinct attribute
names are assumed, as `dir` never repeats a name. -/
theorem C4_theorem (modName : String) (attrs : List PyAttr) (a : PyAttr)
    (m : String) (hd : (attrs.map PyAttr.name).Nodup) (ha : a ∈ attrs)
    (hm : a.moduleAttr = some m) (hs : strStartsWith m modName = false) :
    a.name ∉ keptNames modName attrs := by
  intro hmem
  rw [mem_keptNames] at hmem
  rcases hmem with ⟨b, hb, hbn, hk⟩
  have hba : b = a := List.inj_on_of_nodup_map hd hb ha hbn
  subst hba
  rw [keptKind_none_of_foreign modName b m hm hs] at hk
  rcases hk with hk | hk | hk <;> exact Option.noConfusion hk

/-- Witness for the amended C4 at a concrete re-exported attribute. -/
theorem C4_witness : "np" ∉ keptNames "pkg" [attrRun, attrForeign] :=
  C4_theorem "pkg" [attrRun, attrForeign] attrForeign "numpy"
    (by decide) (by decide) rfl rfl

/-- C6: for a package exposing a filesystem location, discovery returns a
set always containing the root package name; an underscore-named file
contributes nothing unless it is a package initializer; an initializer
contributes its containing directory's dotted name; any other file
contributes the dotted join of its path segments relative to the
package's parent with the extension dropped. -/
theorem C6_theorem (package_name pkgDirName : String) (files : List PyFile)
    (mods : List String)
    (h : discover_modules package_name (.ok (some (pkgDirName, files))) = .ok mods) :
    package_name ∈ mods ∧
    (∀ m, m ∈ mods ↔ m = package_name ∨ ∃ f ∈ files, fileSkipped f = false ∧
        fileModuleName pkgDirName f ≠ "" ∧ m = fileModuleName pkgDirName f) ∧
    (∀ f : PyFile, fileSkipped f = true ↔
        (strStartsWith (pyFileName f) "_" = true ∧ pyFileName f ≠ "__init__.py")) ∧
    (∀ f : PyFile, pyFileName f = "__init__.py" →
        fileModuleName pkgDirName f = joinDots (pkgDirName :: f.dirs)) ∧
    (∀ f : PyFile, pyFileName f ≠ "__init__.py" →
        fileModuleName pkgDirName f = joinDots ((pkgDirName :: f.dirs) ++ [f.stem])) := by
  have hmods : mods = files.foldl (discoverStep pkgDirName) [package_name] := by
    simp only [discover_modules, module_set, Except.ok.injEq] at h
    exact h.symm
  subst hmods
  refine ⟨?_, ?_, ?_, ?_, ?_⟩
  · rw [mem_foldl_discover]
    exact Or.inl (List.mem_singleton.mpr rfl)
  · intro m
    rw [mem_foldl_discover, List.mem_singleton]
  · intro f
    unfold fileSkipped
    rw [Bool.and_eq_true, bne_iff_ne]
  · intro f hf
    unfold fileModuleName
    rw [if_pos hf, List.append_nil]
  · intro f hf
    unfold fileModuleName
    rw [if_neg hf]

/-- Witness for C6 at a concrete package layout. -/
theorem C6_witness :
    "pkg" ∈ module_set "pkg" (some ("pkg",
      [⟨[], "__init__"⟩, ⟨[], "core"⟩, ⟨[], "_private"⟩, ⟨["sub"], "__init__"⟩])) :=
  ( C6_theorem "pkg" "pkg"
    [⟨[], "__init__"⟩, ⟨[], "core"⟩, ⟨[], "_private"⟩, ⟨["sub"], "__init__"⟩]
    (module_set "pkg" (some ("pkg",
      [⟨[], "__init__"⟩, ⟨[], "core"⟩, ⟨[], "_private"⟩, ⟨["sub"], "__init__"⟩])))
    rfl).1

/-- C7: the index page lists exactly the discovered module names, one per
line, in lexicographic order regardless of the set's enumeration order,
preceded by a title with a matching-length underline and a one-line
description referencing the package name (the spec-side page layout
`specIndexPage`). -/
theorem C7_theorem (package_name : String) (l1 l2 : List String)
    (h : l1.Perm l2) :
    apiIndexContent package_name l1 = apiIndexContent package_name l2 ∧
    apiIndexContent package_name l1 = specIndexPage package_name l1 ∧
    (sortStrings l1).Sorted strLe ∧ (sortStrings l1).Perm l1 := by
  refine ⟨?_, rfl, sortStrings_sorted l1, sortStrings_perm l1⟩
  unfold apiIndexContent
  rw [sortStrings_perm_inv l1 l2 h]

/-- Witness for C7 at two enumerations of the same module set. -/
theorem C7_witness :
    apiIndexContent "demo" ["demo.core", "demo"] =
      apiIndexContent "demo" ["demo", "demo.core"] :=
  ( C7_theorem "demo" ["demo.core", "demo"] ["demo", "demo.core"]
    (List.Perm.swap _ _ _)).1

/-- C8: a written module page consists, in order, of the title line equal
to the module name with a matching-length underline, the automodule
directive, and then exactly the non-empty categories in the fixed order
Functions, Classes, Submodules, each as a heading with matching underline
and an autosummary block listing the members one per line, classes with
the extra template option and submodules with the extra recursive option,
empty categories being omitted entirely (`specModulePage`). -/
theorem C8_theorem (module_name : String)
    (functions classes submodules : List String) :
    moduleDocContent module_name functions classes submodules =
      specModulePage module_name functions classes submodules ∧
    (∀ imp fn c, generate_module_doc module_name imp = .wrote fn c →
      ∃ attrs, imp = .ok attrs ∧
        c = specModulePage module_name
          (get_public_members module_name attrs).1
          (get_public_members module_name attrs).2.1
          (get_public_members module_name attrs).2.2) := by
  refine ⟨rfl, ?_⟩
  intro imp fn c hw
  rcases imp with e | attrs
  · exact ModuleDocResult.noConfusion hw
  · rw [generate_module_doc_ok] at hw
    by_cases hemp : (get_public_members module_name attrs).1 = [] ∧
      (get_public_members module_name attrs).2.1 = [] ∧
      (get_public_members module_name attrs).2.2 = []
    · rw [if_pos hemp] at hw
      exact ModuleDocResult.noConfusion hw
    · rw [if_neg hemp] at hw
      injection hw with h1 h2
      exact ⟨attrs, rfl, h2.symm⟩

/-- Witness for C8 at a concrete classified module. -/
theorem C8_witness :
    ∃ attrs, (Except.ok [attrRun] : Except String (List PyAttr)) = .ok attrs ∧
      moduleDocContent "pkg" ["run"] [] [] =
        specModulePage "pkg" (get_public_members "pkg" attrs).1
          (get_public_members "pkg" attrs).2.1
          (get_public_members "pkg" attrs).2.2 :=
  ( C8_theorem "pkg" [] [] []).2 (.ok [attrRun]) "pkg.rst"
    (moduleDocContent "pkg" ["run"] [] []) (by rfl)

theorem keepFile_iff (nm : String) :
    ((!(strEndsWith nm ".rst" && nm != "index.rst")) = true) ↔
      ¬(strEndsWith nm ".rst" = true ∧ nm ≠ "index.rst") := by
  cases h : strEndsWith nm ".rst" <;> by_cases h2 : nm = "index.rst" <;>
    simp [h, h2]

theorem cleanOutput_files_mem (d : OutDir) (f : FileEnt) :
    f ∈ (cleanOutput d).files ↔
      f ∈ d.files ∧ ¬(strEndsWith f.name ".rst" = true ∧ f.name ≠ "index.rst") := by
  show f ∈ d.files.filter (fun f => !(strEndsWith f.name ".rst" && f.name != "index.rst")) ↔ _
  rw [List.mem_filter]
  exact and_congr_right (fun _ => keepFile_iff f.name)

theorem cleanOutput_subdirs_mem (d : OutDir) (sd : DirEnt) :
    sd ∈ (cleanOutput d).subdirs ↔ sd ∈ d.subdirs ∧ sd.name ≠ "generated" := by
  show sd ∈ d.subdirs.filter (fun sd => sd.name != "generated") ↔ _
  rw [List.mem_filter]
  exact and_congr_right (fun _ => bne_iff_ne ..)

/-- C1 counterexample: the claim that the clean step preserves the file
written by the tool's own index emitter is false: the emitter writes
`api.rst` while the clean step preserves only the name `index.rst`, so a
present `api.rst` is removed. -/
theorem C1_counterexample : ¬ C1_claim := by
  intro h
  have h2 := ((h ⟨[⟨"api.rst", "X"⟩], []⟩).1 ⟨"api.rst", "X"⟩
    (List.mem_singleton.mpr rfl)).mpr (by decide)
  exact absurd h2 (by decide)

/-- C1 amended: when the output directory exists, the clean step removes
exactly the direct `.rst` files other than the fixed name `index.rst` —
a name distinct from the `api.rst` file the index emitter writes — and
the `generated` subdirectory; consequently the index file written by
`generate_api_index` does not survive the clean step. -/
theorem C1_theorem (d : OutDir) :
    (∀ f : FileEnt, f ∈ (cleanOutput d).files ↔
      f ∈ d.files ∧ ¬(strEndsWith f.name ".rst" = true ∧ f.name ≠ "index.rst")) ∧
    (∀ sd : DirEnt, sd ∈ (cleanOutput d).subdirs ↔
      sd ∈ d.subdirs ∧ sd.name ≠ "generated") ∧
    (∀ f : FileEnt, f.name = apiIndexFileName → f ∉ (cleanOutput d).files) := by
  refine ⟨cleanOutput_files_mem d, cleanOutput_subdirs_mem d, ?_⟩
  intro f hf hmem
  have h1 := (cleanOutput_files_mem d f).mp hmem
  rw [hf] at h1
  exact h1.2 (by decide)

/-- Witness for the amended C1: a present `api.rst` is removed by clean. -/
theorem C1_witness :
    (⟨"api.rst", "X"⟩ : FileEnt) ∉ (cleanOutput ⟨[⟨"api.rst", "X"⟩], []⟩).files :=
  ( C1_theorem ⟨[⟨"api.rst", "X"⟩], []⟩).2.2 ⟨"api.rst", "X"⟩ rfl

/-- C10: the clean step deletes only the direct `.rst` files other than
the preserved `index.rst` and the `generated` subdirectory with its
contents; every other direct file and every other subdirectory of the
output directory, with its contents, is left in place unchanged. -/
theorem C10_theorem (d : OutDir) :
    (∀ f : FileEnt, f ∈ (cleanOutput d).files ↔
      f ∈ d.files ∧ ¬(strEndsWith f.name ".rst" = true ∧ f.name ≠ "index.rst")) ∧
    (∀ sd : DirEnt, sd ∈ (cleanOutput d).subdirs ↔
      sd ∈ d.subdirs ∧ sd.name ≠ "generated") :=
  ⟨cleanOutput_files_mem d, cleanOutput_subdirs_mem d⟩

/-- C9 counterexample: the claim that the clean step removes all
previously generated files except the index is false at a concrete run:
the run writes its index as `api.rst`, which the clean step removes. -/
theorem C9_counterexample : ¬ C9_claim := by
  intro h
  have h2 := (h envNoFiles "pkg" none
    ⟨[⟨apiIndexFileName, apiIndexContent "pkg" ["pkg"]⟩], []⟩ (by rfl)).1
  exact absurd h2 (by decide)

/-- C9 amended: after a generation run, the clean step removes the
generated index `api.rst` as well (only the name `index.rst`, which the
generator never writes, is preserved); a clean-then-generate run then
succeeds and reproduces every generated file, the index included, with
identical content. -/
theorem C9_theorem (env : PyEnv) (package_name : String)
    (outputDir : Option OutDir) (d1 : OutDir)
    (h : runMain env package_name false outputDir = .ok d1) :
    readFile (cleanOutput d1) apiIndexFileName = none ∧
    ∃ d2, runMain env package_name true (some d1) = .ok d2 ∧
      ∀ n c, lookupWrites (writeSeq env package_name) n = some c →
        readFile d1 n = some c ∧ readFile d2 n = some c := by
  refine ⟨readFile_cleanOutput_rst d1 apiIndexFileName (by decide) (by decide), ?_⟩
  rcases henv : env.pkgImport with e | location
  · rw [show runMain env package_name false outputDir = .error 1 from by
      simp only [runMain, discover_modules, henv]] at h
    exact Except.noConfusion h
  · have h1 := runMain_ok env package_name false outputDir location henv
    rw [h1] at h
    simp only [Except.ok.injEq] at h
    subst h
    refine ⟨applyWrites (writeSeq env package_name)
      (cleanOutput (applyWrites (writeSeq env package_name)
        (startDir false outputDir))), ?_, ?_⟩
    · rw [runMain_ok env package_name true _ location henv]
      rfl
    · intro n c hl
      constructor
      · rw [readFile_applyWrites, hl]
      · rw [readFile_applyWrites, hl]

/-- Witness for the corrected C9: the index written by a concrete run is
gone after the clean step. -/
theorem C9_witness :
    readFile (cleanOutput ⟨[⟨apiIndexFileName, apiIndexContent "pkg" ["pkg"]⟩], []⟩)
      apiIndexFileName = none :=
  (C9_theorem envNoFiles "pkg" none
    ⟨[⟨apiIndexFileName, apiIndexContent "pkg" ["pkg"]⟩], []⟩ (by rfl)).1
